import Mathlib

/-!
Verification of the InstructionCount component of swift-stress-tester.

The repository exposes a single C header,
`Sources/InstructionCount/include/InstructionCount.h`, declaring

    uint64_t get_current_instruction_count();

We embed two things:

1. the header itself (the declared external interface), translated
   directly from the source file; and
2. an operational model of the function's runtime behaviour. The
   implementation translation unit is not present in the source tree
   (only the header is), so the behaviour is modelled from the spec:
   a per-build backend either reads the OS-maintained per-process
   retired-instruction counter, or — when the platform provides no
   such facility — returns the unchanging sentinel value zero.

Process executions are modelled as interleaved event traces: the
observed process retires instructions, other processes retire
instructions, and threads of the observed process call the sampler.
-/

namespace InstructionCount

/-! ## The header's declared interface (from the source) -/

/-- A C function declaration as it appears textually in a header:
its name, return type, declared parameter types, whether the
parameter list is literally `(void)` (as opposed to the empty `()`),
and whether the declaration is wrapped in an `extern "C"` guard. -/
structure HeaderDecl where
  name : String
  returnType : String
  params : List String
  paramListIsVoid : Bool
  hasExternCGuard : Bool
  deriving Repr, DecidableEq

/-- The external surface of a module: its exported functions, the
linkage of their definitions, and any flags, configuration knobs or
persisted state it exposes. -/
structure ExternalInterface where
  exportedFunctions : List HeaderDecl
  linkage : String
  flags : List String
  configuration : List String
  persistedState : List String
  deriving Repr, DecidableEq

/-- The single declaration of `InstructionCount.h` (lines 18-19):
`uint64_t get_current_instruction_count();` — empty parameter list,
not `(void)`, and the header contains no `extern "C"` guard. -/
def instructionCountDecl : HeaderDecl :=
  { name := "get_current_instruction_count"
    returnType := "uint64_t"
    params := []
    paramListIsVoid := false
    hasExternCGuard := false }

/-- The external interface of the InstructionCount module: exactly the
one declaration of the header, no flags, no configuration, no
persisted state. The `linkage` field is modelled from the spec
(the boundary is "a single exported call with C linkage"; the
defining translation unit, absent from the source tree, is C). -/
def instructionCountInterface : ExternalInterface :=
  { exportedFunctions := [instructionCountDecl]
    linkage := "C"
    flags := []
    configuration := []
    persistedState := [] }

/-- The language a consumer compiles the header as. -/
inductive CLang where
  | c
  | cpp
  deriving Repr, DecidableEq

/-- Whether, for a consumer compiling the header as `lang`, the
declared type of `d` makes passing arguments to the function a type
error. In C++ an empty parameter list `()` declares a function of no
parameters; in C (before C23) an empty list is a non-prototype
declaration that constrains nothing, so only `(void)` (or a
non-empty parameter list) yields a prototype. -/
def enforcesZeroArgs (lang : CLang) (d : HeaderDecl) : Bool :=
  match lang with
  | .cpp => d.params.isEmpty
  | .c => d.paramListIsVoid || !d.params.isEmpty

/-! ## Operational model of the runtime behaviour -/

/-- Modelled from the spec: the implementation translation unit is not
in the source tree, so backend selection is taken from §4.1 of the
spec — a build/target either has a facility reporting the process's
retired-instruction count, or it has none and the no-op backend is
selected. -/
inductive Backend where
  | supported
  | unsupported
  deriving Repr, DecidableEq

/-- An event in the life of the observed process, used to model
executions: the observed process retires `n` instructions
(`ownWork n`), some sibling/parent/independent process retires `n`
instructions (`otherWork n`), or a thread `tid` of the observed
process calls `get_current_instruction_count` (`call tid`). -/
inductive Event where
  | ownWork (n : Nat)
  | otherWork (n : Nat)
  | call (tid : Nat)
  deriving Repr, DecidableEq

/-- Modelled from the spec: the missing implementation's observable
result. The spec (§3, §4.1, §7) fixes it as: on a supported backend,
the OS-maintained count of instructions retired by the calling
process since launch, reported as a 64-bit unsigned integer; on an
unsupported backend, the unchanging sentinel zero. `counter` is the
OS-maintained count the call reads. -/
def get_current_instruction_count (b : Backend) (counter : Nat) : Nat :=
  match b with
  | .supported => counter % 2 ^ 64
  | .unsupported => 0

/-- How the OS-maintained per-process counter evolves at one event:
it advances exactly by the instructions the observed process itself
retires; work by other processes and the sampling call leave it
unchanged. -/
def advance (c : Nat) : Event → Nat
  | .ownWork n => c + n
  | .otherWork _ => c
  | .call _ => c

/-- The OS counter after a trace of events, starting from `c`. -/
def finalCounter (c : Nat) : List Event → Nat
  | [] => c
  | e :: es => finalCounter (advance c e) es

/-- The number of calls to `get_current_instruction_count` in a
trace. -/
def countCalls : List Event → Nat
  | [] => 0
  | .call _ :: es => countCalls es + 1
  | _ :: es => countCalls es

/-- The values returned by the calls of a trace, in the global order
the calls occur, with the OS counter at `c` initially. -/
def runTrace (b : Backend) : List Event → Nat → List Nat
  | [], _ => []
  | .ownWork n :: es, c => runTrace b es (c + n)
  | .otherWork _ :: es, c => runTrace b es c
  | .call _ :: es, c => get_current_instruction_count b c :: runTrace b es c

/-! ## Basic facts about the model -/

theorem advance_le (c : Nat) (e : Event) : c ≤ advance c e := by
  cases e <;> simp [advance]

theorem le_finalCounter (c : Nat) (es : List Event) :
    c ≤ finalCounter c es := by
  induction es generalizing c with
  | nil => exact Nat.le_refl c
  | cons e es ih =>
      exact Nat.le_trans (advance_le c e) (ih (advance c e))

/-- Over a trace whose final counter stays below `2 ^ 64`, every
returned sample on the supported backend is the exact counter value
at the moment of the call, hence at least the starting counter and
at most the final counter. -/
theorem runTrace_supported_mem_bounds (es : List Event) (c : Nat)
    (hov : finalCounter c es < 2 ^ 64) :
    ∀ x ∈ runTrace .supported es c, c ≤ x ∧ x ≤ finalCounter c es := by
  induction es generalizing c with
  | nil => intro x hx; simp [runTrace] at hx
  | cons e es ih =>
      cases e with
      | ownWork n =>
          intro x hx
          simp only [runTrace] at hx
          have h := ih (c + n) (by simpa [finalCounter, advance] using hov) x hx
          exact ⟨Nat.le_trans (Nat.le_add_right c n) h.1, by
            simpa [finalCounter, advance] using h.2⟩
      | otherWork n =>
          intro x hx
          simp only [runTrace] at hx
          have h := ih c (by simpa [finalCounter, advance] using hov) x hx
          exact ⟨h.1, by simpa [finalCounter, advance] using h.2⟩
      | call tid =>
          intro x hx
          simp only [runTrace, get_current_instruction_count,
            List.mem_cons] at hx
          have hc : c < 2 ^ 64 :=
            Nat.lt_of_le_of_lt (le_finalCounter c (Event.call tid :: es))
              (by simpa [finalCounter, advance] using hov)
          rcases hx with hx | hx
          · subst hx
            rw [Nat.mod_eq_of_lt hc]
            exact ⟨Nat.le_refl c, by
              simpa [finalCounter, advance] using
                le_finalCounter c (Event.call tid :: es)⟩
          · have h := ih c (by simpa [finalCounter, advance] using hov) x hx
            exact ⟨h.1, by simpa [finalCounter, advance] using h.2⟩

/-- Shared monotonicity core: with no 64-bit overflow along the
trace, the global sequence of returned samples is non-decreasing, on
either backend. -/
theorem runTrace_chain_le (b : Backend) (es : List Event) (c : Nat)
    (hov : finalCounter c es < 2 ^ 64) :
    List.Chain' (· ≤ ·) (runTrace b es c) := by
  cases b with
  | unsupported =>
      induction es generalizing c with
      | nil => simp [runTrace]
      | cons e es ih =>
          cases e with
          | ownWork n =>
              simp only [runTrace]
              exact ih (c + n) (by simpa [finalCounter, advance] using hov)
          | otherWork n =>
              simp only [runTrace]
              exact ih c (by simpa [finalCounter, advance] using hov)
          | call tid =>
              simp only [runTrace, get_current_instruction_count]
              refine List.chain'_cons'.mpr ⟨?_, ih c (by simpa [finalCounter, advance] using hov)⟩
              intro y hy
              exact Nat.zero_le y
  | supported =>
      induction es generalizing c with
      | nil => simp [runTrace]
      | cons e es ih =>
          cases e with
          | ownWork n =>
              simp only [runTrace]
              exact ih (c + n) (by simpa [finalCounter, advance] using hov)
          | otherWork n =>
              simp only [runTrace]
              exact ih c (by simpa [finalCounter, advance] using hov)
          | call tid =>
              have hov' : finalCounter c es < 2 ^ 64 := by
                simpa [finalCounter, advance] using hov
              simp only [runTrace, get_current_instruction_count]
              refine List.chain'_cons'.mpr ⟨?_, ih c hov'⟩
              intro y hy
              have hc : c < 2 ^ 64 :=
                Nat.lt_of_le_of_lt (le_finalCounter c es) hov'
              have := (runTrace_supported_mem_bounds es c hov' y
                (List.mem_of_mem_head? hy)).1
              rw [Nat.mod_eq_of_lt hc]
              exact this

/-- The length of the sample list equals the number of calls in the
trace: every call completes and contributes exactly one value. -/
theorem runTrace_length (b : Backend) (es : List Event) (c : Nat) :
    (runTrace b es c).length = countCalls es := by
  induction es generalizing c with
  | nil => simp [runTrace, countCalls]
  | cons e es ih =>
      cases e with
      | ownWork n => simpa [runTrace, countCalls] using ih (c + n)
      | otherWork n => simpa [runTrace, countCalls] using ih c
      | call tid => simpa [runTrace, countCalls] using ih c

/-! ## Process state beyond the counter, for the frame property -/

/-- Modelled from the spec: the observable state of the process. The
OS-maintained retired-instruction counter, plus the other observable
state the spec's frame condition names — memory allocated, locks
held on shared mutable state, and I/O operations performed. -/
structure ProcState where
  counter : Nat
  allocations : Nat
  locksHeld : Nat
  ioOps : Nat
  deriving Repr, DecidableEq

/-- Modelled from the spec: how one event transforms the full process
state. The process's own work advances the OS counter; work in other
processes changes nothing observable here; a call to
`get_current_instruction_count` allocates no memory, takes no lock,
performs no I/O and leaves every component of the state unchanged. -/
def stepState (s : ProcState) : Event → ProcState
  | .ownWork n => { s with counter := s.counter + n }
  | .otherWork _ => s
  | .call _ => s

/-- The process state after a trace of events. -/
def finalState (s : ProcState) (es : List Event) : ProcState :=
  es.foldl stepState s

/-! ## Erasures of a trace -/

/-- The trace as seen by the observed process alone: the events of
sibling, parent or other independent processes erased. -/
def ownEvents : List Event → List Event
  | [] => []
  | .otherWork _ :: es => ownEvents es
  | e :: es => e :: ownEvents es

/-- The trace with the thread identity of every call erased: which
thread of the process issued each call. -/
def stripTid : Event → Event
  | .call _ => .call 0
  | e => e

/-- Erase all thread identities of a trace. -/
def stripTids (es : List Event) : List Event :=
  es.map stripTid

/-- The samples of a trace depend only on the observed process's own
events: erasing other processes' work changes nothing. -/
theorem runTrace_ownEvents (b : Backend) (es : List Event) (c : Nat) :
    runTrace b es c = runTrace b (ownEvents es) c := by
  induction es generalizing c with
  | nil => rfl
  | cons e es ih =>
      cases e with
      | ownWork n => simpa [runTrace, ownEvents] using ih (c + n)
      | otherWork n => simpa [runTrace, ownEvents] using ih c
      | call tid => simpa [runTrace, ownEvents] using ih c

/-- The samples of a trace do not depend on which thread issues each
call. -/
theorem runTrace_stripTids (b : Backend) (es : List Event) (c : Nat) :
    runTrace b es c = runTrace b (stripTids es) c := by
  induction es generalizing c with
  | nil => rfl
  | cons e es ih =>
      cases e with
      | ownWork n => simpa [runTrace, stripTids, stripTid] using ih (c + n)
      | otherWork n => simpa [runTrace, stripTids, stripTid] using ih c
      | call tid => simpa [runTrace, stripTids, stripTid] using ih c

/-! ## The claims -/

/-- C1: for every pair of calls C1 then C2 within one process (issued
by any threads), the value returned by C2 is at least the value
returned by C1 — the counter is never reset or rolled back while the
process runs, provided no 64-bit overflow occurs: over any event
trace whose counter stays below `2 ^ 64`, the global sequence of
returned samples is non-decreasing. -/
theorem monotonic_across_calls (b : Backend) (es : List Event) (c : Nat)
    (hov : finalCounter c es < 2 ^ 64) :
    List.Chain' (· ≤ ·) (runTrace b es c) :=
  runTrace_chain_le b es c hov

theorem monotonic_across_calls_witness :
    finalCounter 0 [Event.call 0, Event.ownWork 5, Event.call 1] < 2 ^ 64 ∧
    List.Chain' (· ≤ ·)
      (runTrace .supported [Event.call 0, Event.ownWork 5, Event.call 1] 0) :=
  ⟨by decide,
   monotonic_across_calls .supported
     [Event.call 0, Event.ownWork 5, Event.call 1] 0 (by decide)⟩

/-- C2: `get_current_instruction_count` is total: on every backend and
at every counter state it returns a 64-bit unsigned integer value —
in the model it is a total function into `Nat` (no error path, no
`Option`, no exception) whose result always fits in 64 bits. -/
theorem total_returns_64bit (b : Backend) (c : Nat) :
    get_current_instruction_count b c < 2 ^ 64 := by
  cases b with
  | supported =>
      exact Nat.mod_lt c (by norm_num)
  | unsupported =>
      simp [get_current_instruction_count]

/-- C3: on a platform with no instruction-retirement facility, every
call returns the sentinel zero, unchanged across calls regardless of
the work performed between them: the samples of any trace on the
unsupported backend are exactly `countCalls es` copies of `0`, and
no explicit error is ever produced. -/
theorem unsupported_sentinel_zero (es : List Event) (c : Nat) :
    runTrace .unsupported es c = List.replicate (countCalls es) 0 := by
  induction es generalizing c with
  | nil => rfl
  | cons e es ih =>
      cases e with
      | ownWork n =>
          simpa [runTrace, countCalls] using ih (c + n)
      | otherWork n =>
          simpa [runTrace, countCalls] using ih c
      | call tid =>
          simp [runTrace, countCalls, get_current_instruction_count,
            List.replicate_succ, ih c]

/-- C4: the external boundary is exactly one exported function,
`get_current_instruction_count`, with C linkage, no inputs, and a
64-bit unsigned return type; there are no flags, no configuration,
and no persisted state. -/
theorem boundary_single_function :
    instructionCountInterface.exportedFunctions = [instructionCountDecl] ∧
    instructionCountDecl.name = "get_current_instruction_count" ∧
    instructionCountDecl.params = [] ∧
    instructionCountDecl.returnType = "uint64_t" ∧
    instructionCountInterface.linkage = "C" ∧
    instructionCountInterface.flags = [] ∧
    instructionCountInterface.configuration = [] ∧
    instructionCountInterface.persistedState = [] :=
  ⟨rfl, rfl, rfl, rfl, rfl, rfl, rfl, rfl⟩

/-- C5: a call to `get_current_instruction_count` is side-effect-free
with respect to every other observable piece of process state: it
allocates no memory, takes no lock, performs no I/O, and does not
even advance the counter — deleting a call event from any trace
leaves the final process state (counter, allocations, locks held,
I/O operations) unchanged. -/
theorem call_is_effect_free (s : ProcState) (t1 t2 : List Event) (tid : Nat) :
    finalState s (t1 ++ Event.call tid :: t2) = finalState s (t1 ++ t2) := by
  simp [finalState, List.foldl_append, stepState]

/-- C6: the returned value reflects only instructions retired by the
calling process: two runs that differ only in the CPU work performed
by sibling, parent or other independent processes return identical
sample sequences, so the measured delta is never inflated by other
processes' work. -/
theorem isolated_from_other_processes (b : Backend)
    (es es' : List Event) (c : Nat)
    (h : ownEvents es = ownEvents es') :
    runTrace b es c = runTrace b es' c := by
  rw [runTrace_ownEvents b es c, runTrace_ownEvents b es' c, h]

theorem isolated_from_other_processes_witness :
    ownEvents [Event.call 0, Event.otherWork 1000, Event.call 0] =
      ownEvents [Event.otherWork 7, Event.call 0, Event.call 0] ∧
    runTrace .supported
        [Event.call 0, Event.otherWork 1000, Event.call 0] 2 =
      runTrace .supported
        [Event.otherWork 7, Event.call 0, Event.call 0] 2 :=
  ⟨by decide,
   isolated_from_other_processes .supported
     [Event.call 0, Event.otherWork 1000, Event.call 0]
     [Event.otherWork 7, Event.call 0, Event.call 0] 2 (by decide)⟩

/-- C7: on a supported platform, bracketing a CPU-bound block that
retires `n > 0` instructions with two calls yields a strictly
positive delta: the two samples are exactly `c` and `c + n`, and the
second is strictly greater than the first (no 64-bit overflow
occurring). -/
theorem work_yields_positive_delta (c n tid1 tid2 : Nat)
    (hn : 0 < n) (hov : c + n < 2 ^ 64) :
    runTrace .supported
        [Event.call tid1, Event.ownWork n, Event.call tid2] c = [c, c + n] ∧
    c < c + n := by
  have hc : c < 2 ^ 64 := Nat.lt_of_le_of_lt (Nat.le_add_right c n) hov
  refine ⟨?_, Nat.lt_add_of_pos_right hn⟩
  simp only [runTrace, get_current_instruction_count]
  rw [Nat.mod_eq_of_lt hc, Nat.mod_eq_of_lt hov]

theorem work_yields_positive_delta_witness :
    0 < 3 ∧ 10 + 3 < 2 ^ 64 ∧
    (runTrace .supported
        [Event.call 0, Event.ownWork 3, Event.call 1] 10 = [10, 10 + 3] ∧
      10 < 10 + 3) :=
  ⟨by decide, by decide,
   work_yields_positive_delta 10 3 0 1 (by decide) (by decide)⟩

/-- C8: every call terminates and returns: over any trace, on any
backend and from any counter state, the sampler produces exactly one
value per call event — no call hangs, blocks or is dropped. -/
theorem every_call_terminates (b : Backend) (es : List Event) (c : Nat) :
    (runTrace b es c).length = countCalls es :=
  runTrace_length b es c

/-- C9: calls issued simultaneously from multiple threads of the same
process are safe: in the interleaving model, the samples of a trace
do not depend on which threads issued the calls (so any interleaving
of threads observes the same consistent snapshots), every call still
returns exactly one value, and the global sequence of samples is
monotone when no 64-bit overflow occurs. -/
theorem concurrent_calls_safe (b : Backend) (es es' : List Event) (c : Nat)
    (h : stripTids es = stripTids es') :
    runTrace b es c = runTrace b es' c ∧
    (runTrace b es c).length = countCalls es ∧
    (finalCounter c es < 2 ^ 64 →
      List.Chain' (· ≤ ·) (runTrace b es c)) := by
  refine ⟨?_, runTrace_length b es c, fun hov => runTrace_chain_le b es c hov⟩
  rw [runTrace_stripTids b es c, runTrace_stripTids b es' c, h]

theorem concurrent_calls_safe_witness :
    stripTids [Event.call 3, Event.ownWork 2, Event.call 4] =
      stripTids [Event.call 8, Event.ownWork 2, Event.call 9] ∧
    (runTrace .supported
        [Event.call 3, Event.ownWork 2, Event.call 4] 0 =
      runTrace .supported
        [Event.call 8, Event.ownWork 2, Event.call 9] 0 ∧
    (runTrace .supported
        [Event.call 3, Event.ownWork 2, Event.call 4] 0).length =
      countCalls [Event.call 3, Event.ownWork 2, Event.call 4] ∧
    (finalCounter 0 [Event.call 3, Event.ownWork 2, Event.call 4] < 2 ^ 64 →
      List.Chain' (· ≤ ·)
        (runTrace .supported
          [Event.call 3, Event.ownWork 2, Event.call 4] 0))) :=
  ⟨by decide,
   concurrent_calls_safe .supported
     [Event.call 3, Event.ownWork 2, Event.call 4]
     [Event.call 8, Event.ownWork 2, Event.call 9] 0 (by decide)⟩

/-- C10: the header declares `get_current_instruction_count` with the
empty parameter list `()` rather than `(void)` and wraps it in no
`extern "C"` guard; consequently, consumed as C the declaration is a
non-prototype that does not make passing arguments a type error, and
the zero-argument precondition is enforced by the declared type only
for C++ consumers. -/
theorem header_nonprototype_in_c :
    instructionCountDecl.hasExternCGuard = false ∧
    instructionCountDecl.paramListIsVoid = false ∧
    enforcesZeroArgs .c instructionCountDecl = false ∧
    enforcesZeroArgs .cpp instructionCountDecl = true :=
  ⟨rfl, rfl, rfl, rfl⟩

end InstructionCount
